import Mathlib

/-
Verification of the match/session state machine of the RPS chat bot
(telegram-bot.py).  The two global dictionaries `active_games` and
`user_games` are modelled as association lists preserving insertion
order (Python dicts iterate in insertion order, and value update keeps
the original position of the key).  Handlers `play`, `join` and `make_move`
are translated statement by statement; `del` on a missing key is
modelled explicitly as a raised KeyError.
-/

namespace RPSBot

/-- The three submitted actions (the strings rock, paper, scissors). -/
inductive Move
  | rock
  | paper
  | scissors
deriving DecidableEq

/-- Match status: waiting (awaiting opponent) or active (in progress). -/
inductive Status
  | waiting
  | active
deriving DecidableEq

/-- One match record, the dict stored in `active_games[game_id]`. -/
structure Game where
  player1 : Nat
  player2 : Option Nat
  player1_move : Option Move
  player2_move : Option Move
  status : Status
deriving DecidableEq

/-- Outcome of resolving two submitted moves. -/
inductive Outcome
  | draw
  | firstWins
  | secondWins
deriving DecidableEq

/-- Observable result of the /join handler. -/
inductive JoinResult
  | joined (game_id : String)
  | noGames
deriving DecidableEq

/-- Observable result of a move handler (/rock, /paper, /scissors).
`keyError` records that `del user_games[...]` raised on player1. -/
inductive MoveResult
  | notInGame
  | gameNotFound
  | waitingOpponent
  | finished (outcome : Outcome)
  | keyError
deriving DecidableEq

/-- Dict lookup: value at the first occurrence of the key, if any. -/
def alookup {α β : Type} [DecidableEq α] : List (α × β) → α → Option β
  | [], _ => none
  | (k, v) :: rest, a => if k = a then some v else alookup rest a

/-- Dict assignment `d[k] = v`: replace the value at the first occurrence
of `k` in place, else append the new pair at the end. -/
def aset {α β : Type} [DecidableEq α] : List (α × β) → α → β → List (α × β)
  | [], a, b => [(a, b)]
  | (k, v) :: rest, a, b =>
      if k = a then (a, b) :: rest else (k, v) :: aset rest a b

/-- Dict deletion `del d[k]`: drop the first occurrence of the key. -/
def adel {α β : Type} [DecidableEq α] : List (α × β) → α → List (α × β)
  | [], _ => []
  | (k, v) :: rest, a => if k = a then rest else (k, v) :: adel rest a

/-- The whole mutable state: the two module-level dictionaries. -/
structure BotState where
  active_games : List (String × Game)
  user_games : List (Nat × String)
deriving DecidableEq

/-- Handler `play`: create a new game under the generated `game_id` and
register the session entry of the creator. -/
def play (game_id : String) (user_id : Nat) (s : BotState) : BotState :=
  { active_games :=
      aset s.active_games game_id
        { player1 := user_id, player2 := none, player1_move := none,
          player2_move := none, status := Status.waiting },
    user_games := aset s.user_games user_id game_id }

/-- The `for game_id, game in active_games.items()` loop of `join`:
first pair whose game is waiting and was not created by `user_id`. -/
def find_available (user_id : Nat) :
    List (String × Game) → Option (String × Game)
  | [] => none
  | (game_id, game) :: rest =>
      if game.status = Status.waiting ∧ game.player1 ≠ user_id then
        some (game_id, game)
      else find_available user_id rest

/-- Handler `join`.  Python tests `if not available_game:`, so a found
game whose id is the empty string is treated as no game found. -/
def join (user_id : Nat) (s : BotState) : JoinResult × BotState :=
  match find_available user_id s.active_games with
  | none => (JoinResult.noGames, s)
  | some (game_id, game) =>
      if game_id = "" then (JoinResult.noGames, s)
      else
        (JoinResult.joined game_id,
          { active_games :=
              aset s.active_games game_id
                { game with player2 := some user_id, status := Status.active },
            user_games := aset s.user_games user_id game_id })

/-- The winner determination of `make_move` (lines 148-157). -/
def resolve (p1_move p2_move : Move) : Outcome :=
  if p1_move = p2_move then Outcome.draw
  else if (p1_move = Move.rock ∧ p2_move = Move.scissors) ∨
      (p1_move = Move.paper ∧ p2_move = Move.rock) ∨
      (p1_move = Move.scissors ∧ p2_move = Move.paper) then
    Outcome.firstWins
  else Outcome.secondWins

/-- Handler `make_move`.  After recording the move, if both move slots
are filled the match is resolved: the game record is deleted, then
the deletion of the player1 session entry runs unguarded (raising KeyError when
absent, aborting the handler with the game record already deleted), then
the player2 entry is deleted only if present. -/
def make_move (user_id : Nat) (move : Move) (s : BotState) :
    MoveResult × BotState :=
  match alookup s.user_games user_id with
  | none => (MoveResult.notInGame, s)
  | some game_id =>
    match alookup s.active_games game_id with
    | none => (MoveResult.gameNotFound, s)
    | some game =>
      let game2 :=
        if game.player1 = user_id then { game with player1_move := some move }
        else { game with player2_move := some move }
      let s2 : BotState :=
        { s with active_games := aset s.active_games game_id game2 }
      match game2.player1_move, game2.player2_move with
      | some p1m, some p2m =>
        let ag2 := adel s2.active_games game_id
        if (alookup s2.user_games game2.player1).isSome then
          let ug1 := adel s2.user_games game2.player1
          let ug2 :=
            match game2.player2 with
            | some p2 => if (alookup ug1 p2).isSome then adel ug1 p2 else ug1
            | none => ug1
          (MoveResult.finished (resolve p1m p2m),
            { active_games := ag2, user_games := ug2 })
        else
          (MoveResult.keyError,
            { active_games := ag2, user_games := s2.user_games })
      | _, _ => (MoveResult.waitingOpponent, s2)

/-- Reachability by the three mutating commands from the empty initial
state.  A created game id is fresh: the spec calls identifiers
"effectively unique within the process lifetime", so a generated id is
neither a live game id nor the target of any session entry. -/
inductive Reachable : BotState → Prop
  | init : Reachable ⟨[], []⟩
  | play_step {s : BotState} (game_id : String) (user_id : Nat) :
      Reachable s →
      alookup s.active_games game_id = none →
      game_id ∉ List.map Prod.snd s.user_games →
      Reachable (play game_id user_id s)
  | join_step {s : BotState} (user_id : Nat) :
      Reachable s → Reachable (join user_id s).2
  | move_step {s : BotState} (user_id : Nat) (move : Move) :
      Reachable s → Reachable (make_move user_id move s).2

/-- Invariant holding in every reachable state: both dictionaries have
duplicate-free keys; a waiting game has no second player and no second
move recorded; an active game has a second player; and whenever a
session entry points at a live game, its owner occupies one of the
participant slots of that game. -/
def goodState (s : BotState) : Prop :=
  (List.map Prod.fst s.active_games).Nodup ∧
  (List.map Prod.fst s.user_games).Nodup ∧
  (∀ gid g, alookup s.active_games gid = some g →
    (g.status = Status.waiting → g.player2 = none ∧ g.player2_move = none) ∧
    (g.status = Status.active → g.player2 ≠ none)) ∧
  (∀ uid gid, alookup s.user_games uid = some gid →
    ∀ g, alookup s.active_games gid = some g →
      g.player1 = uid ∨ g.player2 = some uid)

/-- The C3 invariant exactly as claimed: a waiting match has the second
participant slot empty and BOTH action slots empty; an active match has
both participant slots filled. -/
def claimedWaitingInv (s : BotState) : Prop :=
  ∀ p ∈ s.active_games,
    (p.2.status = Status.waiting →
      p.2.player2 = none ∧ p.2.player1_move = none ∧
        p.2.player2_move = none) ∧
    (p.2.status = Status.active → p.2.player2 ≠ none)

/-- A reachable state violating the claimed C3 invariant: the creator
of a match submits an action while the match is still awaiting an
opponent, so a waiting match carries a recorded first action. -/
def cexC3_state : BotState := (make_move 1 Move.rock (play "g1" 1 ⟨[], []⟩)).2

/-- The trace exhibiting the unguarded player1 session-entry deletion:
user 1 creates "g1", user 2 joins it, user 1 submits rock, user 1
creates "g2" (overwriting their session entry), user 3 joins "g2",
user 3 submits rock, user 1 submits paper (resolving "g2" and deleting
the session entries of users 1 and 3). -/
def cexC2_s1 : BotState := play "g1" 1 ⟨[], []⟩

def cexC2_s2 : BotState := (join 2 cexC2_s1).2

def cexC2_s3 : BotState := (make_move 1 Move.rock cexC2_s2).2

def cexC2_s4 : BotState := play "g2" 1 cexC2_s3

def cexC2_s5 : BotState := (join 3 cexC2_s4).2

def cexC2_s6 : BotState := (make_move 3 Move.rock cexC2_s5).2

def cexC2_s7 : BotState := (make_move 1 Move.paper cexC2_s6).2

/-! Association-list lemmas -/

theorem alookup_aset_self {α β : Type} [DecidableEq α]
    (l : List (α × β)) (k : α) (v : β) : alookup (aset l k v) k = some v := by
  induction l with
  | nil => simp [aset, alookup]
  | cons hd tl ih =>
    obtain ⟨a, b⟩ := hd
    by_cases h : a = k <;> simp [aset, alookup, h, ih]

theorem alookup_aset_ne {α β : Type} [DecidableEq α]
    (l : List (α × β)) (k k2 : α) (v : β) (h : k2 ≠ k) :
    alookup (aset l k v) k2 = alookup l k2 := by
  induction l with
  | nil =>
    have h2 : ¬k = k2 := fun h2 => h h2.symm
    simp [aset, alookup, h2]
  | cons hd tl ih =>
    obtain ⟨a, b⟩ := hd
    by_cases ha : a = k
    · subst ha
      have h2 : ¬a = k2 := fun h2 => h h2.symm
      simp [aset, alookup, h2]
    · simp [aset, alookup, ha, ih]

theorem alookup_adel_ne {α β : Type} [DecidableEq α]
    (l : List (α × β)) (k k2 : α) (h : k2 ≠ k) :
    alookup (adel l k) k2 = alookup l k2 := by
  induction l with
  | nil => simp [adel]
  | cons hd tl ih =>
    obtain ⟨a, b⟩ := hd
    by_cases ha : a = k
    · subst ha
      have h2 : ¬a = k2 := fun h2 => h h2.symm
      simp [adel, alookup, h2]
    · simp [adel, alookup, ha, ih]

theorem alookup_eq_none_of_not_mem {α β : Type} [DecidableEq α]
    (l : List (α × β)) (k : α) (h : k ∉ List.map Prod.fst l) :
    alookup l k = none := by
  induction l with
  | nil => simp [alookup]
  | cons hd tl ih =>
    obtain ⟨a, b⟩ := hd
    simp only [List.map_cons, List.mem_cons, not_or] at h
    have h3 : ¬a = k := fun h2 => h.1 h2.symm
    simp [alookup, h3, ih h.2]

theorem adel_sublist {α β : Type} [DecidableEq α]
    (l : List (α × β)) (k : α) : List.Sublist (adel l k) l := by
  induction l with
  | nil => simp [adel]
  | cons hd tl ih =>
    obtain ⟨a, b⟩ := hd
    by_cases ha : a = k
    · rw [show adel ((a, b) :: tl) k = tl from by simp [adel, ha]]
      exact List.sublist_cons_self (a, b) tl
    · rw [show adel ((a, b) :: tl) k = (a, b) :: adel tl k from by simp [adel, ha]]
      exact List.Sublist.cons₂ (a, b) ih

theorem nodup_keys_adel {α β : Type} [DecidableEq α]
    (l : List (α × β)) (k : α) (h : (List.map Prod.fst l).Nodup) :
    (List.map Prod.fst (adel l k)).Nodup :=
  List.Nodup.sublist (List.Sublist.map Prod.fst (adel_sublist l k)) h

theorem alookup_adel_self {α β : Type} [DecidableEq α]
    (l : List (α × β)) (k : α) (h : (List.map Prod.fst l).Nodup) :
    alookup (adel l k) k = none := by
  induction l with
  | nil => simp [adel, alookup]
  | cons hd tl ih =>
    obtain ⟨a, b⟩ := hd
    simp only [List.map_cons, List.nodup_cons] at h
    by_cases ha : a = k
    · subst ha
      simpa [adel] using alookup_eq_none_of_not_mem tl a h.1
    · simp [adel, alookup, ha, ih h.2]

theorem mem_keys_aset {α β : Type} [DecidableEq α]
    (l : List (α × β)) (k x : α) (v : β)
    (h : x ∈ List.map Prod.fst (aset l k v)) :
    x ∈ List.map Prod.fst l ∨ x = k := by
  induction l with
  | nil => simpa [aset] using h
  | cons hd tl ih =>
    obtain ⟨a, b⟩ := hd
    by_cases ha : a = k
    · subst ha
      rw [show aset ((a, b) :: tl) a v = (a, v) :: tl from by simp [aset]] at h
      simp only [List.map_cons, List.mem_cons] at h ⊢
      rcases h with h | h
      · exact Or.inr h
      · exact Or.inl (Or.inr h)
    · rw [show aset ((a, b) :: tl) k v = (a, b) :: aset tl k v from by
        simp [aset, ha]] at h
      simp only [List.map_cons, List.mem_cons] at h ⊢
      rcases h with h | h
      · exact Or.inl (Or.inl h)
      · rcases ih h with h2 | h2
        · exact Or.inl (Or.inr h2)
        · exact Or.inr h2

theorem nodup_keys_aset {α β : Type} [DecidableEq α]
    (l : List (α × β)) (k : α) (v : β) (h : (List.map Prod.fst l).Nodup) :
    (List.map Prod.fst (aset l k v)).Nodup := by
  induction l with
  | nil => simp [aset]
  | cons hd tl ih =>
    obtain ⟨a, b⟩ := hd
    simp only [List.map_cons, List.nodup_cons] at h
    by_cases ha : a = k
    · subst ha
      simpa [aset] using h
    · simp only [aset, ha, if_false, List.map_cons, List.nodup_cons]
      refine ⟨fun hmem => ?_, ih h.2⟩
      rcases mem_keys_aset tl k a v hmem with h2 | h2
      · exact h.1 h2
      · exact ha h2

theorem alookup_of_mem_nodup {α β : Type} [DecidableEq α]
    (l : List (α × β)) (k : α) (v : β)
    (hn : (List.map Prod.fst l).Nodup) (h : (k, v) ∈ l) :
    alookup l k = some v := by
  induction l with
  | nil => simp at h
  | cons hd tl ih =>
    obtain ⟨a, b⟩ := hd
    simp only [List.map_cons, List.nodup_cons] at hn
    rcases List.mem_cons.mp h with h | h
    · obtain ⟨rfl, rfl⟩ := Prod.mk.injEq .. ▸ h
      simp_all [alookup]
    · have hak : a ≠ k := by
        rintro rfl
        exact hn.1 (List.mem_map.mpr ⟨(a, v), h, rfl⟩)
      simp [alookup, hak, ih hn.2 h]

theorem mem_of_alookup {α β : Type} [DecidableEq α]
    (l : List (α × β)) (k : α) (v : β) (h : alookup l k = some v) :
    (k, v) ∈ l := by
  induction l with
  | nil => simp [alookup] at h
  | cons hd tl ih =>
    obtain ⟨a, b⟩ := hd
    by_cases ha : a = k
    · subst ha
      have h2 : b = v := by simpa [alookup] using h
      subst h2
      exact List.mem_cons_self _ _
    · simp only [alookup, if_neg ha] at h
      exact List.mem_cons_of_mem _ (ih h)

theorem alookup_adel_imp {α β : Type} [DecidableEq α]
    (l : List (α × β)) (k u : α) (x : β)
    (hn : (List.map Prod.fst l).Nodup) (h : alookup (adel l k) u = some x) :
    alookup l u = some x := by
  by_cases hu : u = k
  · subst hu
    rw [alookup_adel_self l u hn] at h
    cases h
  · rwa [alookup_adel_ne l k u hu] at h

/-! find_available lemmas -/

theorem find_available_prop (user_id : Nat) (l : List (String × Game))
    (p : String × Game) (h : find_available user_id l = some p) :
    p.2.status = Status.waiting ∧ p.2.player1 ≠ user_id := by
  induction l with
  | nil => simp [find_available] at h
  | cons hd tl ih =>
    obtain ⟨a, b⟩ := hd
    by_cases hc : b.status = Status.waiting ∧ b.player1 ≠ user_id
    · simp only [find_available, if_pos hc, Option.some.injEq] at h
      subst h
      exact hc
    · simp only [find_available, if_neg hc] at h
      exact ih h

theorem find_available_mem (user_id : Nat) (l : List (String × Game))
    (p : String × Game) (h : find_available user_id l = some p) : p ∈ l := by
  induction l with
  | nil => simp [find_available] at h
  | cons hd tl ih =>
    obtain ⟨a, b⟩ := hd
    by_cases hc : b.status = Status.waiting ∧ b.player1 ≠ user_id
    · simp only [find_available, if_pos hc, Option.some.injEq] at h
      simp [← h]
    · simp only [find_available, if_neg hc] at h
      exact List.mem_cons_of_mem _ (ih h)

theorem find_available_eq_none (user_id : Nat) (l : List (String × Game))
    (h : ∀ p ∈ l, ¬(p.2.status = Status.waiting ∧ p.2.player1 ≠ user_id)) :
    find_available user_id l = none := by
  induction l with
  | nil => simp [find_available]
  | cons hd tl ih =>
    obtain ⟨a, b⟩ := hd
    have hc := h (a, b) (List.mem_cons_self _ _)
    simp only [find_available, if_neg hc]
    exact ih fun p hp => h p (List.mem_cons_of_mem _ hp)

/-! The inductive state invariant -/


theorem goodState_init : goodState ⟨[], []⟩ := by
  refine ⟨List.nodup_nil, List.nodup_nil, ?_, ?_⟩
  · intro gid g h
    simp [alookup] at h
  · intro uid gid h
    simp [alookup] at h

/-- Overwriting a live game with a record that keeps the participant
slots and the status, and keeps the second move empty while waiting,
preserves the invariant. -/
theorem goodState_update (s : BotState) (gid : String) (game game2 : Game)
    (hg : goodState s)
    (hlook : alookup s.active_games gid = some game)
    (hp1 : game2.player1 = game.player1) (hp2 : game2.player2 = game.player2)
    (hstat : game2.status = game.status)
    (hwait : game2.status = Status.waiting → game2.player2_move = none) :
    goodState { s with active_games := aset s.active_games gid game2 } := by
  obtain ⟨hn1, hn2, hst, hsess⟩ := hg
  refine ⟨nodup_keys_aset _ _ _ hn1, hn2, ?_, ?_⟩
  · intro gid2 g hl
    by_cases h : gid2 = gid
    · subst h
      rw [alookup_aset_self] at hl
      obtain rfl : game2 = g := Option.some.inj hl
      refine ⟨fun hw => ⟨?_, hwait hw⟩, fun ha => ?_⟩
      · rw [hp2]
        exact ((hst gid2 game hlook).1 (hstat ▸ hw)).1
      · rw [hp2]
        exact (hst gid2 game hlook).2 (hstat ▸ ha)
    · rw [alookup_aset_ne _ _ _ _ h] at hl
      exact hst gid2 g hl
  · intro uid2 gid2 hl g hg2
    by_cases h : gid2 = gid
    · subst h
      rw [alookup_aset_self] at hg2
      obtain rfl : game2 = g := Option.some.inj hg2
      rcases hsess uid2 gid2 hl game hlook with h2 | h2
      · exact Or.inl (hp1 ▸ h2)
      · exact Or.inr (hp2 ▸ h2)
    · rw [alookup_aset_ne _ _ _ _ h] at hg2
      exact hsess uid2 gid2 hl g hg2

/-- Deleting the game record (after any in-place update of it) and
restricting the session directory to a sub-dictionary preserves the
invariant. -/
theorem goodState_cleanup (s : BotState) (gid : String) (game2 : Game)
    (ug2 : List (Nat × String)) (hg : goodState s)
    (hn : (List.map Prod.fst ug2).Nodup)
    (himp : ∀ uid2 gid2, alookup ug2 uid2 = some gid2 →
      alookup s.user_games uid2 = some gid2) :
    goodState ⟨adel (aset s.active_games gid game2) gid, ug2⟩ := by
  obtain ⟨hn1, hn2, hst, hsess⟩ := hg
  have hn1b : (List.map Prod.fst (aset s.active_games gid game2)).Nodup :=
    nodup_keys_aset _ _ _ hn1
  refine ⟨nodup_keys_adel _ _ hn1b, hn, ?_, ?_⟩
  · intro gid2 g hl
    by_cases h : gid2 = gid
    · subst h
      rw [alookup_adel_self _ _ hn1b] at hl
      cases hl
    · rw [alookup_adel_ne _ _ _ h, alookup_aset_ne _ _ _ _ h] at hl
      exact hst gid2 g hl
  · intro uid2 gid2 hl g hg2
    by_cases h : gid2 = gid
    · subst h
      rw [alookup_adel_self _ _ hn1b] at hg2
      cases hg2
    · rw [alookup_adel_ne _ _ _ h, alookup_aset_ne _ _ _ _ h] at hg2
      exact hsess uid2 gid2 (himp uid2 gid2 hl) g hg2

theorem goodState_play (s : BotState) (gid : String) (uid : Nat)
    (hg : goodState s)
    (hfresh : alookup s.active_games gid = none)
    (hfresh2 : gid ∉ List.map Prod.snd s.user_games) :
    goodState (play gid uid s) := by
  obtain ⟨hn1, hn2, hst, hsess⟩ := hg
  refine ⟨nodup_keys_aset _ _ _ hn1, nodup_keys_aset _ _ _ hn2, ?_, ?_⟩
  · intro gid2 g hl
    simp only [play] at hl
    by_cases h : gid2 = gid
    · subst h
      rw [alookup_aset_self] at hl
      obtain rfl := Option.some.inj hl
      exact ⟨fun _ => ⟨rfl, rfl⟩, fun ha => by simp at ha⟩
    · rw [alookup_aset_ne _ _ _ _ h] at hl
      exact hst gid2 g hl
  · intro uid2 gid2 hl g hg2
    simp only [play] at hl hg2
    by_cases hu : uid2 = uid
    · subst hu
      rw [alookup_aset_self] at hl
      obtain rfl : gid = gid2 := Option.some.inj hl
      rw [alookup_aset_self] at hg2
      obtain rfl := Option.some.inj hg2
      exact Or.inl rfl
    · rw [alookup_aset_ne _ _ _ _ hu] at hl
      by_cases hgid : gid2 = gid
      · subst hgid
        exact absurd (List.mem_map.mpr ⟨(uid2, gid2), mem_of_alookup _ _ _ hl, rfl⟩)
          hfresh2
      · rw [alookup_aset_ne _ _ _ _ hgid] at hg2
        exact hsess uid2 gid2 hl g hg2

theorem goodState_join (s : BotState) (uid : Nat) (hg : goodState s) :
    goodState (join uid s).2 := by
  obtain ⟨hn1, hn2, hst, hsess⟩ := hg
  cases hfa : find_available uid s.active_games with
  | none =>
    simp only [join, hfa]
    exact ⟨hn1, hn2, hst, hsess⟩
  | some p =>
    obtain ⟨gid0, g0⟩ := p
    by_cases hemp : gid0 = ""
    · simp only [join, hfa, if_pos hemp]
      exact ⟨hn1, hn2, hst, hsess⟩
    · simp only [join, hfa, if_neg hemp]
      have hprop := find_available_prop uid s.active_games (gid0, g0) hfa
      have hmem := find_available_mem uid s.active_games (gid0, g0) hfa
      have hlook : alookup s.active_games gid0 = some g0 :=
        alookup_of_mem_nodup _ _ _ hn1 hmem
      refine ⟨nodup_keys_aset _ _ _ hn1, nodup_keys_aset _ _ _ hn2, ?_, ?_⟩
      · intro gid2 g hl
        by_cases h : gid2 = gid0
        · subst h
          rw [alookup_aset_self] at hl
          obtain rfl := Option.some.inj hl
          exact ⟨fun hw => by simp at hw, fun _ => by simp⟩
        · rw [alookup_aset_ne _ _ _ _ h] at hl
          exact hst gid2 g hl
      · intro uid2 gid2 hl g hg2
        by_cases hu : uid2 = uid
        · subst hu
          rw [alookup_aset_self] at hl
          obtain rfl : gid0 = gid2 := Option.some.inj hl
          rw [alookup_aset_self] at hg2
          obtain rfl := Option.some.inj hg2
          exact Or.inr rfl
        · rw [alookup_aset_ne _ _ _ _ hu] at hl
          by_cases hgid : gid2 = gid0
          · subst hgid
            rw [alookup_aset_self] at hg2
            obtain rfl := Option.some.inj hg2
            rcases hsess uid2 gid2 hl g0 hlook with h2 | h2
            · exact Or.inl h2
            · have hw := (hst gid2 g0 hlook).1 hprop.1
              rw [hw.1] at h2
              cases h2
          · rw [alookup_aset_ne _ _ _ _ hgid] at hg2
            exact hsess uid2 gid2 hl g hg2

theorem goodState_move (s : BotState) (uid : Nat) (mv : Move)
    (hg : goodState s) : goodState (make_move uid mv s).2 := by
  cases hu : alookup s.user_games uid with
  | none =>
    simp only [make_move, hu]
    exact hg
  | some gid =>
    cases hag : alookup s.active_games gid with
    | none =>
      simp only [make_move, hu, hag]
      exact hg
    | some game =>
      by_cases hp : game.player1 = uid
      · cases hm2 : game.player2_move with
        | none =>
          simp only [make_move, hu, hag, if_pos hp, hm2]
          exact goodState_update s gid game _ hg hag rfl rfl rfl (fun _ => rfl)
        | some m2 =>
          simp only [make_move, hu, hag, if_pos hp, hm2]
          by_cases hks : (alookup s.user_games game.player1).isSome = true
          · rw [if_pos hks]
            cases hq : game.player2 with
            | none =>
              exact goodState_cleanup s gid _ _ hg (nodup_keys_adel _ _ hg.2.1)
                (fun u g2 h => alookup_adel_imp _ _ _ _ hg.2.1 h)
            | some p2 =>
              dsimp only
              by_cases hks2 :
                  (alookup (adel s.user_games game.player1) p2).isSome = true
              · rw [if_pos hks2]
                exact goodState_cleanup s gid _ _ hg
                  (nodup_keys_adel _ _ (nodup_keys_adel _ _ hg.2.1))
                  (fun u g2 h => alookup_adel_imp _ _ _ _ hg.2.1
                    (alookup_adel_imp _ _ _ _ (nodup_keys_adel _ _ hg.2.1) h))
              · rw [if_neg hks2]
                exact goodState_cleanup s gid _ _ hg (nodup_keys_adel _ _ hg.2.1)
                  (fun u g2 h => alookup_adel_imp _ _ _ _ hg.2.1 h)
          · rw [if_neg hks]
            exact goodState_cleanup s gid _ _ hg hg.2.1 (fun _ _ h => h)
      · cases hm1 : game.player1_move with
        | none =>
          simp only [make_move, hu, hag, if_neg hp, hm1]
          refine goodState_update s gid game _ hg hag rfl rfl rfl (fun hw => ?_)
          rcases hg.2.2.2 uid gid hu game hag with h2 | h2
          · exact absurd h2 hp
          · rw [((hg.2.2.1 gid game hag).1 hw).1] at h2
            cases h2
        | some m1 =>
          simp only [make_move, hu, hag, if_neg hp, hm1]
          by_cases hks : (alookup s.user_games game.player1).isSome = true
          · rw [if_pos hks]
            cases hq : game.player2 with
            | none =>
              exact goodState_cleanup s gid _ _ hg (nodup_keys_adel _ _ hg.2.1)
                (fun u g2 h => alookup_adel_imp _ _ _ _ hg.2.1 h)
            | some p2 =>
              dsimp only
              by_cases hks2 :
                  (alookup (adel s.user_games game.player1) p2).isSome = true
              · rw [if_pos hks2]
                exact goodState_cleanup s gid _ _ hg
                  (nodup_keys_adel _ _ (nodup_keys_adel _ _ hg.2.1))
                  (fun u g2 h => alookup_adel_imp _ _ _ _ hg.2.1
                    (alookup_adel_imp _ _ _ _ (nodup_keys_adel _ _ hg.2.1) h))
              · rw [if_neg hks2]
                exact goodState_cleanup s gid _ _ hg (nodup_keys_adel _ _ hg.2.1)
                  (fun u g2 h => alookup_adel_imp _ _ _ _ hg.2.1 h)
          · rw [if_neg hks]
            exact goodState_cleanup s gid _ _ hg hg.2.1 (fun _ _ h => h)

/-- Every reachable state satisfies the invariant. -/
theorem reachable_goodState (s : BotState) (h : Reachable s) : goodState s := by
  induction h with
  | init => exact goodState_init
  | play_step gid uid hr hfresh hfresh2 ih => exact goodState_play _ gid uid ih hfresh hfresh2
  | join_step uid hr ih => exact goodState_join _ uid ih
  | move_step uid mv hr ih => exact goodState_move _ uid mv ih

/-! Claims -/

/-- Claim C1: `resolve` is total over the nine ordered pairs of actions
and returns draw iff the two actions are equal, first-wins iff the pair
(action1, action2) is one of (rock,scissors), (paper,rock),
(scissors,paper), and second-wins in every remaining case. -/
theorem C1_resolve_outcome_table : ∀ a b : Move,
    (resolve a b = Outcome.draw ↔ a = b) ∧
    (resolve a b = Outcome.firstWins ↔
      ((a, b) = (Move.rock, Move.scissors) ∨ (a, b) = (Move.paper, Move.rock) ∨
        (a, b) = (Move.scissors, Move.paper))) ∧
    (resolve a b = Outcome.secondWins ↔
      (¬a = b ∧ ¬((a, b) = (Move.rock, Move.scissors) ∨
        (a, b) = (Move.paper, Move.rock) ∨
        (a, b) = (Move.scissors, Move.paper)))) := by
  intro a b
  cases a <;> cases b <;> decide

/-- Claim C4: for every pair of actions, resolve(a,b) = first-wins iff
resolve(b,a) = second-wins (anti-symmetry of resolve except for draws). -/
theorem C4_resolve_antisymmetry : ∀ a b : Move,
    resolve a b = Outcome.firstWins ↔ resolve b a = Outcome.secondWins := by
  intro a b
  cases a <;> cases b <;> decide

/-- Claim C5: whenever join invoked by P selects a match, the first
participant slot of that match is not P (and P lands in the second slot); a
participant is never matched against themselves. -/
theorem C5_join_no_self_match : ∀ (s : BotState) (P : Nat) (gid : String)
    (s2 : BotState), join P s = (JoinResult.joined gid, s2) →
    ∃ g, alookup s2.active_games gid = some g ∧ g.player1 ≠ P ∧
      g.player2 = some P := by
  intro s P gid s2 h
  unfold join at h
  cases hfa : find_available P s.active_games with
  | none =>
    rw [hfa] at h
    simp at h
  | some p =>
    obtain ⟨gid0, g0⟩ := p
    rw [hfa] at h
    dsimp only at h
    by_cases hemp : gid0 = ""
    · rw [if_pos hemp] at h
      simp at h
    · rw [if_neg hemp] at h
      injection h with h1 h2
      injection h1 with h3
      subst h3
      subst h2
      refine ⟨{ g0 with player2 := some P, status := Status.active },
        alookup_aset_self _ _ _, ?_, rfl⟩
      exact (find_available_prop P s.active_games (gid0, g0) hfa).2

/-- Claim C5 witness: user 2 joining the match created by user 1. -/
theorem C5_join_no_self_match_witness :
    ∃ g, alookup ((join 2 (play "g1" 1 ⟨[], []⟩)).2).active_games "g1" =
        some g ∧ g.player1 ≠ 2 ∧ g.player2 = some 2 :=
  C5_join_no_self_match (play "g1" 1 ⟨[], []⟩) 2 "g1"
    ((join 2 (play "g1" 1 ⟨[], []⟩)).2) (by decide)

/-- Claim C6: after create-match for P with generated identifier `gid`,
the session directory maps P to `gid` and the match table holds under
`gid` a record with first = P, second empty, both action slots empty
and status awaiting-opponent. -/
theorem C6_play_creates_record : ∀ (P : Nat) (gid : String) (s : BotState),
    alookup (play gid P s).user_games P = some gid ∧
    alookup (play gid P s).active_games gid =
      some { player1 := P, player2 := none, player1_move := none,
             player2_move := none, status := Status.waiting } := by
  intro P gid s
  exact ⟨alookup_aset_self _ _ _, alookup_aset_self _ _ _⟩

/-- Claim C7: when no match record is awaiting an opponent with a
creator different from P, join replies no-match-available and leaves
the state exactly unchanged. -/
theorem C7_join_none_available : ∀ (P : Nat) (s : BotState),
    (∀ p ∈ s.active_games,
      ¬(p.2.status = Status.waiting ∧ p.2.player1 ≠ P)) →
    join P s = (JoinResult.noGames, s) := by
  intro P s h
  unfold join
  rw [find_available_eq_none P s.active_games h]

/-- Claim C7 witness: the creator of the only (waiting) match cannot
join it, and the state is untouched. -/
theorem C7_join_none_available_witness :
    join 1 (play "g1" 1 ⟨[], []⟩) = (JoinResult.noGames, play "g1" 1 ⟨[], []⟩) :=
  C7_join_none_available 1 (play "g1" 1 ⟨[], []⟩) (by decide)

/-- When both lookups succeed, `make_move` never reports one of the two
error replies. -/
theorem make_move_result_shape (P : Nat) (m : Move) (s : BotState)
    (gid : String) (game : Game)
    (hu : alookup s.user_games P = some gid)
    (hag : alookup s.active_games gid = some game) :
    (make_move P m s).1 ≠ MoveResult.notInGame ∧
    (make_move P m s).1 ≠ MoveResult.gameNotFound := by
  by_cases hp : game.player1 = P
  · cases hm2 : game.player2_move with
    | none => simp [make_move, hu, hag, if_pos hp, hm2]
    | some m2 =>
      simp only [make_move, hu, hag, if_pos hp, hm2]
      by_cases hks : (alookup s.user_games game.player1).isSome = true
      · simp [if_pos hks]
      · simp [if_neg hks]
  · cases hm1 : game.player1_move with
    | none => simp [make_move, hu, hag, if_neg hp, hm1]
    | some m1 =>
      simp only [make_move, hu, hag, if_neg hp, hm1]
      by_cases hks : (alookup s.user_games game.player1).isSome = true
      · simp [if_pos hks]
      · simp [if_neg hks]

/-- Claim C8: submit-action fails with not-in-match exactly when P has
no session entry, and with match-not-found exactly when the session
entry of P is dangling; in both cases the state is left unchanged. -/
theorem C8_submit_error_conditions : ∀ (P : Nat) (m : Move) (s : BotState),
    (make_move P m s = (MoveResult.notInGame, s) ↔
      alookup s.user_games P = none) ∧
    (make_move P m s = (MoveResult.gameNotFound, s) ↔
      ∃ gid, alookup s.user_games P = some gid ∧
        alookup s.active_games gid = none) := by
  intro P m s
  cases hu : alookup s.user_games P with
  | none =>
    refine ⟨⟨fun _ => rfl, fun _ => by simp [make_move, hu]⟩,
      ⟨fun h => ?_, fun h => ?_⟩⟩
    · rw [show make_move P m s = (MoveResult.notInGame, s) from by
        simp [make_move, hu]] at h
      simp at h
    · obtain ⟨gid, hgid, _⟩ := h
      cases hgid
  | some gid =>
    cases hag : alookup s.active_games gid with
    | none =>
      have he : make_move P m s = (MoveResult.gameNotFound, s) := by
        simp [make_move, hu, hag]
      refine ⟨⟨fun h => ?_, fun h => ?_⟩,
        ⟨fun _ => ⟨gid, rfl, hag⟩, fun _ => he⟩⟩
      · rw [he] at h
        simp at h
      · cases h
    | some game =>
      have hs := make_move_result_shape P m s gid game hu hag
      refine ⟨⟨fun h => ?_, fun h => ?_⟩, ⟨fun h => ?_, fun h => ?_⟩⟩
      · exact absurd (congrArg Prod.fst h) hs.1
      · cases h
      · exact absurd (congrArg Prod.fst h) hs.2
      · obtain ⟨gid2, hgid2, hag2⟩ := h
        obtain rfl : gid = gid2 := Option.some.inj hgid2
        rw [hag] at hag2
        cases hag2

/-- Claim C8 witness: a user with no session entry gets the
not-in-match reply and the state is unchanged. -/
theorem C8_submit_error_conditions_witness :
    make_move 5 Move.rock ⟨[], []⟩ = (MoveResult.notInGame, (⟨[], []⟩ : BotState)) :=
  ((C8_submit_error_conditions 5 Move.rock ⟨[], []⟩).1).mpr (by decide)

/-- Claim C9: with a valid session entry and the action slot of the opponent
still empty, a second submit-action by the same participant overwrites
their previously recorded action (last write wins), leaving all other
fields of the match record unchanged, and the session directory as it
was. -/
theorem C9_last_write_wins : ∀ (P : Nat) (m1 m2 : Move) (s : BotState)
    (gid : String) (g : Game),
    alookup s.user_games P = some gid →
    alookup s.active_games gid = some g →
    (if g.player1 = P then g.player2_move = none else g.player1_move = none) →
    alookup ((make_move P m1 s).2).active_games gid =
      some (if g.player1 = P then { g with player1_move := some m1 }
            else { g with player2_move := some m1 }) ∧
    alookup ((make_move P m2 (make_move P m1 s).2).2).active_games gid =
      some (if g.player1 = P then { g with player1_move := some m2 }
            else { g with player2_move := some m2 }) ∧
    ((make_move P m2 (make_move P m1 s).2).2).user_games = s.user_games := by
  intro P m1 m2 s gid g hu hag hop
  by_cases hp : g.player1 = P
  · rw [if_pos hp] at hop
    simp [make_move, hu, hag, hp, hop, alookup_aset_self]
  · rw [if_neg hp] at hop
    simp [make_move, hu, hag, hp, hop, alookup_aset_self]

/-- Claim C9 witness: player 1 of a just-joined match submits rock and
then paper before player 2 moves; paper is the recorded action. -/
theorem C9_last_write_wins_witness :
    alookup ((make_move 1 Move.paper (make_move 1 Move.rock
        ((join 2 (play "g1" 1 ⟨[], []⟩)).2)).2).2).active_games "g1" =
      some { player1 := 1, player2 := some 2, player1_move := some Move.paper,
             player2_move := none, status := Status.active } :=
  (C9_last_write_wins 1 Move.rock Move.paper ((join 2 (play "g1" 1 ⟨[], []⟩)).2)
    "g1" { player1 := 1, player2 := some 2, player1_move := none,
           player2_move := none, status := Status.active }
    (by decide) (by decide) (by decide)).2.1


/-- Claim C3 counterexample: the state after /play by user 1 followed by
/rock by user 1 is reachable, yet its only match is awaiting-opponent
with the first action slot filled. -/
theorem C3_counterexample : Reachable cexC3_state ∧ ¬claimedWaitingInv cexC3_state := by
  constructor
  · exact Reachable.move_step 1 Move.rock
      (Reachable.play_step "g1" 1 Reachable.init (by decide) (by decide))
  · unfold claimedWaitingInv cexC3_state
    decide

/-- Claim C3 (amended): in every reachable state, a match with status
awaiting-opponent has its second participant slot and its SECOND action
slot empty (the first action slot may be filled, since the creator can
submit before an opponent joins), and a match with status in-progress
has both participant slots filled. -/
theorem C3_amended_invariant : ∀ s : BotState, Reachable s →
    ∀ p ∈ s.active_games,
      (p.2.status = Status.waiting →
        p.2.player2 = none ∧ p.2.player2_move = none) ∧
      (p.2.status = Status.active → p.2.player2 ≠ none) := by
  intro s hr p hp
  have hg := reachable_goodState s hr
  have hl : alookup s.active_games p.1 = some p.2 :=
    alookup_of_mem_nodup _ _ _ hg.1 hp
  exact hg.2.2.1 p.1 p.2 hl

/-- Claim C3 (amended) witness: the single record of a freshly created
match satisfies the amended invariant. -/
theorem C3_amended_invariant_witness :
    ((Game.mk 1 none none none Status.waiting).status = Status.waiting →
      (Game.mk 1 none none none Status.waiting).player2 = none ∧
      (Game.mk 1 none none none Status.waiting).player2_move = none) ∧
    ((Game.mk 1 none none none Status.waiting).status = Status.active →
      (Game.mk 1 none none none Status.waiting).player2 ≠ none) :=
  C3_amended_invariant (play "g1" 1 ⟨[], []⟩)
    (Reachable.play_step "g1" 1 Reachable.init (by decide) (by decide))
    ("g1", Game.mk 1 none none none Status.waiting) (by decide)

/-- Claim C10: create-match and join-match overwrite the acting
session entry of the acting participant to the new match while every other match
record stays untouched; in any reachable state a participant has at
most one session entry (duplicate-free keys); and a reachable state can
hold one participant in the slots of several match records at once. -/
theorem C10_session_overwrite :
    (∀ (P : Nat) (gid : String) (s : BotState),
      alookup (play gid P s).user_games P = some gid ∧
      ∀ gid2, gid2 ≠ gid →
        alookup (play gid P s).active_games gid2 =
          alookup s.active_games gid2) ∧
    (∀ (P : Nat) (s : BotState) (gid : String) (s2 : BotState),
      join P s = (JoinResult.joined gid, s2) →
      alookup s2.user_games P = some gid ∧
      ∀ gid2, gid2 ≠ gid →
        alookup s2.active_games gid2 = alookup s.active_games gid2) ∧
    (∀ s : BotState, Reachable s →
      (List.map Prod.fst s.user_games).Nodup) ∧
    (∃ s : BotState, Reachable s ∧
      ∃ (P : Nat) (gid1 gid2 : String) (g1 g2 : Game), gid1 ≠ gid2 ∧
        alookup s.active_games gid1 = some g1 ∧
        alookup s.active_games gid2 = some g2 ∧
        g1.player1 = P ∧ g2.player1 = P) := by
  refine ⟨?_, ?_, ?_, ?_⟩
  · intro P gid s
    exact ⟨alookup_aset_self _ _ _,
      fun gid2 h => alookup_aset_ne _ _ _ _ h⟩
  · intro P s gid s2 h
    unfold join at h
    cases hfa : find_available P s.active_games with
    | none =>
      rw [hfa] at h
      simp at h
    | some p =>
      obtain ⟨gid0, g0⟩ := p
      rw [hfa] at h
      dsimp only at h
      by_cases hemp : gid0 = ""
      · rw [if_pos hemp] at h
        simp at h
      · rw [if_neg hemp] at h
        injection h with h1 h2
        injection h1 with h3
        subst h3
        subst h2
        exact ⟨alookup_aset_self _ _ _,
          fun gid2 h => alookup_aset_ne _ _ _ _ h⟩
  · intro s hr
    exact (reachable_goodState s hr).2.1
  · refine ⟨play "g2" 1 (play "g1" 1 ⟨[], []⟩), ?_,
      1, "g1", "g2", Game.mk 1 none none none Status.waiting,
      Game.mk 1 none none none Status.waiting,
      by decide, by decide, by decide, rfl, rfl⟩
    exact Reachable.play_step "g2" 1
      (Reachable.play_step "g1" 1 Reachable.init (by decide) (by decide))
      (by decide) (by decide)

/-- Claim C10 witness: creating "g1" as user 5 registers the session
entry and leaves the (absent) record under another id unchanged. -/
theorem C10_session_overwrite_witness :
    alookup (play "g1" 5 ⟨[], []⟩).user_games 5 = some "g1" ∧
    alookup (play "g1" 5 ⟨[], []⟩).active_games "zz" =
      alookup (⟨[], []⟩ : BotState).active_games "zz" :=
  ⟨(C10_session_overwrite.1 5 "g1" ⟨[], []⟩).1,
    (C10_session_overwrite.1 5 "g1" ⟨[], []⟩).2 "zz" (by decide)⟩


/-- Claim C2 fails on the code: in the reachable state `cexC2_s7`,
user 2 still has a session entry for match "g1" whose first action is
recorded; submitting scissors fills both action slots, and the
resolution raises KeyError (player 1 has no session entry), leaving
the session entry of user 2 dangling on the already-deleted match. -/
theorem C2_resolution_keyError :
    Reachable cexC2_s7 ∧
    alookup cexC2_s7.user_games 2 = some "g1" ∧
    (∃ g, alookup cexC2_s7.active_games "g1" = some g ∧
      g.player2 = some 2 ∧ g.player1_move = some Move.rock ∧
      g.player2_move = none) ∧
    (make_move 2 Move.scissors cexC2_s7).1 = MoveResult.keyError ∧
    alookup ((make_move 2 Move.scissors cexC2_s7).2).user_games 2 =
      some "g1" ∧
    alookup ((make_move 2 Move.scissors cexC2_s7).2).active_games "g1" =
      none := by
  refine ⟨?_,
    by decide,
    ⟨Game.mk 1 (some 2) (some Move.rock) none Status.active,
      by decide, rfl, rfl, rfl⟩,
    by decide, by decide, by decide⟩
  unfold cexC2_s7 cexC2_s6 cexC2_s5 cexC2_s4 cexC2_s3 cexC2_s2 cexC2_s1
  exact Reachable.move_step 1 Move.paper
    (Reachable.move_step 3 Move.rock
      (Reachable.join_step 3
        (Reachable.play_step "g2" 1
          (Reachable.move_step 1 Move.rock
            (Reachable.join_step 2
              (Reachable.play_step "g1" 1 Reachable.init
                (by decide) (by decide))))
          (by decide) (by decide))))

end RPSBot
